import Mathlib

/-!
Verification of `parse_calendarific.py`, a sequential pipeline that fetches
holiday records from the Calendarific API, filters them to an inclusive date
window, and writes them as JSON lines to per-country files.

The embedding models:
  * calendar dates (`Date`) with Python `datetime` comparison and validity;
  * holiday records as JSON-like values (`JVal`), since the script treats
    them as opaque dictionaries and only inspects `date.datetime.{year,month,day}`;
  * the four functions `fetch_holidays`, `filter_holidays_by_date`,
    `save_to_file`, `validate_dates`, and the orchestrating `main`,
    with network and file I/O abstracted into explicit inputs/outputs.
-/

namespace Calendarific

/-- A calendar date, as the (year, month, day) triple that
`datetime(year=..., month=..., day=...)` carries (time components are always
zero in this program, so they are omitted). -/
structure Date where
  year : Int
  month : Int
  day : Int
deriving DecidableEq, Repr

/-- Is `y` a leap year, per the proleptic Gregorian calendar used by
Python's `datetime`. -/
def isLeap (y : Int) : Bool :=
  y % 4 == 0 && (y % 100 != 0 || y % 400 == 0)

/-- Number of days of month `m` in year `y` (Python `calendar.monthrange`
semantics, used by the `datetime` constructor to validate the day). -/
def daysInMonth (y m : Int) : Int :=
  if m == 2 then (if isLeap y then 29 else 28)
  else if m == 4 || m == 6 || m == 9 || m == 11 then 30
  else 31

/-- The validity check the `datetime` constructor performs:
`MINYEAR (1) <= year <= MAXYEAR (9999)`, `1 <= month <= 12`,
`1 <= day <= days in that month`. -/
def validDate (y m d : Int) : Bool :=
  decide (1 ≤ y) && decide (y ≤ 9999) &&
  decide (1 ≤ m) && decide (m ≤ 12) &&
  decide (1 ≤ d) && decide (d ≤ daysInMonth y m)

/-- Python `datetime` comparison `a <= b`: lexicographic on
(year, month, day). -/
def dateLe (a b : Date) : Bool :=
  if a.year < b.year then true
  else if b.year < a.year then false
  else if a.month < b.month then true
  else if b.month < a.month then false
  else decide (a.day ≤ b.day)

/-- Python `datetime` comparison `a < b`. -/
def dateLt (a b : Date) : Bool :=
  !(dateLe b a)

/-- The calendar day immediately before `d` (for stating the filter's
boundary behaviour at `start - 1 day`). -/
def datePred (d : Date) : Date :=
  if 1 < d.day then ⟨d.year, d.month, d.day - 1⟩
  else if 1 < d.month then ⟨d.year, d.month - 1, daysInMonth d.year (d.month - 1)⟩
  else ⟨d.year - 1, 12, 31⟩

/-- The calendar day immediately after `d` (for stating the filter's
boundary behaviour at `end + 1 day`). -/
def dateSucc (d : Date) : Date :=
  if d.day < daysInMonth d.year d.month then ⟨d.year, d.month, d.day + 1⟩
  else if d.month < 12 then ⟨d.year, d.month + 1, 1⟩
  else ⟨d.year + 1, 1, 1⟩

/-- JSON-like values: what `response.json()` can produce and what a holiday
record is. Numbers are restricted to integers, which is what the provider's
date components are; `str`, `bool` and `null` cover the non-numeric leaves
(`datetime(...)` raises `TypeError` on `str` and `None`, while `bool`
coerces to an int, `bool` being an `int` subclass). -/
inductive JVal where
  | null : JVal
  | bool : Bool → JVal
  | num : Int → JVal
  | str : String → JVal
  | arr : List JVal → JVal
  | obj : List (String × JVal) → JVal
deriving Repr

/-- Python subscript `v[key]` with a string key: succeeds only on a dict
that has the key (first binding; JSON objects have unique keys). `none`
models the raised `KeyError`/`TypeError`, which the script catches. -/
def pySubscriptStr (v : JVal) (key : String) : Option JVal :=
  match v with
  | .obj fs => (fs.find? fun kv => kv.1 == key).map (fun kv => kv.2)
  | _ => none

/-- The three nested lookups
`holiday['date']['datetime']['year'|'month'|'day']`; `none` as soon as one
of them raises. -/
def lookupDate (h : JVal) : Option (JVal × JVal × JVal) :=
  match pySubscriptStr h "date" with
  | none => none
  | some dv =>
    match pySubscriptStr dv "datetime" with
    | none => none
    | some dt =>
      match pySubscriptStr dt "year", pySubscriptStr dt "month", pySubscriptStr dt "day" with
      | some y, some m, some d => some (y, m, d)
      | _, _, _ => none

/-- How the `datetime` constructor reads one argument: an `int` is taken
as is; a `bool` coerces (`True` is `1`, `False` is `0`, `bool` being an
`int` subclass, so `datetime(2023, True, True)` is 2023-01-01); `str`,
`None` and structured values raise `TypeError`. -/
def asPyInt : JVal → Option Int
  | .num n => some n
  | .bool b => some (if b then 1 else 0)
  | _ => none

/-- Resolving a record's date:
`datetime(year=h['date']['datetime']['year'], month=..., day=...)`.
`none` models any raised exception (missing key, a component that is not
an `int`/`bool`, invalid calendar date), all of which the script catches
and skips. -/
def resolveDate (h : JVal) : Option Date :=
  match lookupDate h with
  | none => none
  | some (yv, mv, dv) =>
    match asPyInt yv, asPyInt mv, asPyInt dv with
    | some y, some m, some d =>
      if validDate y m d then some ⟨y, m, d⟩ else none
    | _, _, _ => none

/-- `filter_holidays_by_date`: keep, in order, the records whose resolved
date lies in the inclusive window; a record whose date resolution raises is
skipped (the exception is caught, printed and swallowed). -/
def filter_holidays_by_date (holidays : List JVal) (start_date end_date : Date) :
    List JVal :=
  match holidays with
  | [] => []
  | holiday :: rest =>
    match resolveDate holiday with
    | some d =>
      if dateLe start_date d && dateLe d end_date then
        holiday :: filter_holidays_by_date rest start_date end_date
      else
        filter_holidays_by_date rest start_date end_date
    | none => filter_holidays_by_date rest start_date end_date

/-- Numeric value of a decimal digit character. -/
def digitVal (c : Char) : Int :=
  Int.ofNat (c.toNat - 48)

/-- Does `c` lie in the character class `[1-9]` (an explicit ASCII range
in the pattern, unlike `\d`). -/
def isDigit19 (c : Char) : Bool :=
  decide ('1' ≤ c) && decide (c ≤ '9')

/-- The first code points of the contiguous runs of ten Unicode decimal
digits (category Nd): what CPython's `re` pattern `\d` matches on a
`str`, and what `int()` converts, digit value = code point minus run
start. Enumerated from CPython 3.11 (Unicode 14). -/
def ndZoneStarts : List Nat :=
  [0x30, 0x660, 0x6F0, 0x7C0, 0x966, 0x9E6, 0xA66, 0xAE6, 0xB66, 0xBE6,
   0xC66, 0xCE6, 0xD66, 0xDE6, 0xE50, 0xED0, 0xF20, 0x1040, 0x1090, 0x17E0,
   0x1810, 0x1946, 0x19D0, 0x1A80, 0x1A90, 0x1B50, 0x1BB0, 0x1C40, 0x1C50,
   0xA620, 0xA8D0, 0xA900, 0xA9D0, 0xA9F0, 0xAA50, 0xABF0, 0xFF10, 0x104A0,
   0x10D30, 0x11066, 0x110F0, 0x11136, 0x111D0, 0x112F0, 0x11450, 0x114D0,
   0x11650, 0x116C0, 0x11730, 0x118E0, 0x11950, 0x11C50, 0x11D50, 0x11DA0,
   0x16A60, 0x16AC0, 0x16B50, 0x1D7CE, 0x1D7D8, 0x1D7E2, 0x1D7EC, 0x1D7F6,
   0x1E140, 0x1E2F0, 0x1E950, 0x1FBF0]

/-- The start of the digit run containing `c`, when `c` is a Unicode
decimal digit. -/
def ndZoneStart (c : Char) : Option Nat :=
  ndZoneStarts.find? fun z => decide (z ≤ c.toNat) && decide (c.toNat < z + 10)

/-- CPython's `\d` on a `str`: any Unicode decimal digit, e.g. the
fullwidth `２` as well as ASCII `2`. -/
def isPyDigit (c : Char) : Bool :=
  (ndZoneStart c).isSome

/-- The decimal value `int()` gives a Unicode digit character. -/
def pyDigitVal (c : Char) : Int :=
  match ndZoneStart c with
  | some z => Int.ofNat (c.toNat - z)
  | none => 0

/-- `strptime` directive `%Y`: exactly four decimal digits (CPython's
`_strptime` uses the pattern `\d\d\d\d`, so each may be any Unicode
decimal digit, converted by `int()`). Returns the year and the remaining
characters. -/
def parseYear4 : List Char → Option (Int × List Char)
  | a :: b :: c :: d :: rest =>
    if isPyDigit a && isPyDigit b && isPyDigit c && isPyDigit d then
      some (1000 * pyDigitVal a + 100 * pyDigitVal b + 10 * pyDigitVal c + pyDigitVal d,
            rest)
    else none
  | _ => none

/-- `strptime` directive `%m`: the pattern `1[0-2]|0[1-9]|[1-9]`, one or
two digits, month 1-12. A two-digit alternative is preferred; if the
engine later backtracks to the one-digit alternative the very next
character is a digit, never the literal `-` the format requires, so the
greedy choice is equivalent to the backtracking regex here. -/
def parseMonth : List Char → Option (Int × List Char)
  | c1 :: c2 :: rest =>
    if c1 == '1' && (c2 == '0' || c2 == '1' || c2 == '2') then
      some (10 + digitVal c2, rest)
    else if c1 == '0' && isDigit19 c2 then
      some (digitVal c2, rest)
    else if isDigit19 c1 then
      some (digitVal c1, c2 :: rest)
    else none
  | [c1] => if isDigit19 c1 then some (digitVal c1, []) else none
  | [] => none

/-- `strptime` directive `%d` in final position: the pattern
`3[01]|[12]\d|0[1-9]|[1-9]`, and `strptime` rejects any unconverted
trailing data, so the digits must exhaust the input. Only the `\d` of the
`[12]\d` alternative admits any Unicode decimal digit; the other classes
are explicit ASCII ranges. A two-digit match that leaves nothing is a
success; a one-digit match that leaves a character behind fails either
way, so greedy matching is again equivalent to the backtracking regex. -/
def parseDayEnd : List Char → Option Int
  | [c1] => if isDigit19 c1 then some (digitVal c1) else none
  | [c1, c2] =>
    if c1 == '3' && (c2 == '0' || c2 == '1') then
      some (30 + digitVal c2)
    else if (c1 == '1' || c1 == '2') && isPyDigit c2 then
      some (10 * digitVal c1 + pyDigitVal c2)
    else if c1 == '0' && isDigit19 c2 then
      some (digitVal c2)
    else none
  | _ => none

/-- `datetime.strptime(s, YYYY-MM-DD format)`: match the anchored pattern
year `-` month `-` day against the whole string, then construct the
`datetime`, which re-validates the calendar date (so `2023-02-30` parses
at the pattern level but the constructor raises). `none` models the
raised `ValueError`. -/
def parseDate (s : String) : Option Date :=
  match parseYear4 s.toList with
  | none => none
  | some (y, rest) =>
    match rest with
    | '-' :: rest1 =>
      match parseMonth rest1 with
      | none => none
      | some (m, rest2) =>
        match rest2 with
        | '-' :: rest3 =>
          match parseDayEnd rest3 with
          | none => none
          | some d => if validDate y m d then some (Date.mk y m d) else none
        | _ => none
    | _ => none

/-- `validate_dates`: parse both strings; raise (here: `.error`) if either
fails to parse or if the start date is strictly after the end date;
otherwise return the two parsed dates unchanged. -/
def validate_dates (start_date end_date : String) : Except String (Date × Date) :=
  match parseDate start_date, parseDate end_date with
  | some start_obj, some end_obj =>
    if dateLt end_obj start_obj then
      Except.error "Start date must not be after end date."
    else
      Except.ok (start_obj, end_obj)
  | _, _ => Except.error "Invalid date format or range. Please use YYYY-MM-DD."

/-- Lowercase hexadecimal digit character. -/
def hexDigitChar (n : Nat) : Char :=
  if n < 10 then Char.ofNat (48 + n) else Char.ofNat (87 + n)

/-- Four lowercase hexadecimal digits, as in a JSON `\uXXXX` escape. -/
def hex4 (n : Nat) : String :=
  String.mk [hexDigitChar (n / 4096 % 16), hexDigitChar (n / 256 % 16),
             hexDigitChar (n / 16 % 16), hexDigitChar (n % 16)]

/-- How `json.dumps` (default `ensure_ascii=True`) renders one character of
a string: printable ASCII other than `"` and backslash stands for itself,
the common control characters get two-character escapes, and everything
else becomes `\uXXXX` (a surrogate pair above U+FFFF). -/
def escapeChar (c : Char) : String :=
  if c == '"' then "\\\""
  else if c == '\\' then "\\\\"
  else if c == '\n' then "\\n"
  else if c == '\r' then "\\r"
  else if c == '\t' then "\\t"
  else if c.toNat == 8 then "\\b"
  else if c.toNat == 12 then "\\f"
  else if 32 ≤ c.toNat && c.toNat ≤ 126 then String.singleton c
  else if c.toNat < 65536 then "\\u" ++ hex4 c.toNat
  else "\\u" ++ hex4 (55296 + (c.toNat - 65536) / 1024) ++
       "\\u" ++ hex4 (56320 + (c.toNat - 65536) % 1024)

/-- `json.dumps` of a string: quoted, each character escaped as above. -/
def dumpString (s : String) : String :=
  "\"" ++ String.join (s.toList.map escapeChar) ++ "\""

/-- Decimal digits of `n`, least significant first. -/
def natToDigitsRev (n : Nat) : List Char :=
  if h : n < 10 then [hexDigitChar n]
  else hexDigitChar (n % 10) :: natToDigitsRev (n / 10)
decreasing_by exact Nat.div_lt_self (by omega) (by omega)

/-- Decimal rendering of a natural number, most significant digit first. -/
def natToDecimal (n : Nat) : String :=
  String.mk (natToDigitsRev n).reverse

/-- How `json.dumps` renders an integer: Python's `repr` of `int`, an
optional minus sign followed by the decimal digits. -/
def intToDecimal (n : Int) : String :=
  if n < 0 then "-" ++ natToDecimal n.natAbs else natToDecimal n.natAbs

mutual

/-- `json.dumps` with its default separators: item separator `, `,
key separator `: `. -/
def jsonDumps : JVal → String
  | .null => "null"
  | .bool true => "true"
  | .bool false => "false"
  | .num n => intToDecimal n
  | .str s => dumpString s
  | .arr xs => "[" ++ jsonDumpsArr xs ++ "]"
  | .obj fs => "\x7b" ++ jsonDumpsObj fs ++ "\x7d"

/-- Array items joined by `, `. -/
def jsonDumpsArr : List JVal → String
  | [] => ""
  | [x] => jsonDumps x
  | x :: y :: rest => jsonDumps x ++ ", " ++ jsonDumpsArr (y :: rest)

/-- Object entries `"key": value` joined by `, `. -/
def jsonDumpsObj : List (String × JVal) → String
  | [] => ""
  | [(k, v)] => dumpString k ++ ": " ++ jsonDumps v
  | (k, v) :: p :: rest =>
    dumpString k ++ ": " ++ jsonDumps v ++ ", " ++ jsonDumpsObj (p :: rest)

end

/-- `save_to_file`: the content written to the destination — each record's
`json.dumps` followed by a newline, in input order. -/
def save_to_file (data : List JVal) : String :=
  String.join (data.map fun holiday => jsonDumps holiday ++ "\n")

/-- Opening the destination with mode `w` truncates it: whatever the file
held before (`oldContent`), afterwards it holds exactly the written
content. -/
def fileAfterSave (oldContent : String) (data : List JVal) : String :=
  save_to_file data

/-- What the one `requests.get` call of `fetch_holidays` can come to:
an HTTP error from `raise_for_status`, another request exception, any
other exception (e.g. a body that is not JSON, raised by `.json()`), or a
parsed JSON body. -/
inductive FetchOutcome where
  | httpError (msg : String)
  | requestError (msg : String)
  | otherError (msg : String)
  | success (data : JVal)

/-- Python's `key in v` for a string key: key test on a dict, membership
test on a list, substring test on a string; `none` models the `TypeError`
raised on other values (all of which `fetch_holidays` catches). -/
def pyContainsStr (key : String) (v : JVal) : Option Bool :=
  match v with
  | .obj fs => some (fs.any fun kv => kv.1 == key)
  | .arr xs =>
    some (xs.any fun x =>
      match x with
      | .str s => s == key
      | _ => false)
  | .str s => some (decide (List.IsInfix key.toList s.toList))
  | _ => none

/-- Python's `holidays.extend(v)`: a list contributes its elements, a
string its one-character substrings, a dict its keys; `none` models the
`TypeError` on non-iterables. -/
def pyExtendFromJson (v : JVal) : Option (List JVal) :=
  match v with
  | .arr xs => some xs
  | .str s => some (s.toList.map fun c => JVal.str (String.singleton c))
  | .obj fs => some (fs.map fun kv => JVal.str kv.1)
  | _ => none

/-- `fetch_holidays`: on any exception the handler prints and the
accumulated (still empty) list is returned; on success the list under
`data['response']['holidays']` is returned when
`'response' in data and 'holidays' in data['response']` holds and the
subscripts succeed, and `[]` otherwise. The `country` and `year`
arguments only parameterize the request, abstracted into `outcome`. -/
def fetch_holidays (country : String) (year : Int) (outcome : FetchOutcome) :
    List JVal :=
  match outcome with
  | .httpError _ => []
  | .requestError _ => []
  | .otherError _ => []
  | .success data =>
    match pyContainsStr "response" data with
    | none => []
    | some false => []
    | some true =>
      match pySubscriptStr data "response" with
      | none => []
      | some resp =>
        match pyContainsStr "holidays" resp with
        | none => []
        | some false => []
        | some true =>
          match pySubscriptStr resp "holidays" with
          | none => []
          | some hv => (pyExtendFromJson hv).getD []

/-- Zero-padded two-digit rendering, as `strftime` `%d` and `%m`. -/
def pad2 (n : Int) : String :=
  if n < 10 then "0" ++ toString n else toString n

/-- Four-digit zero-padded year: the `YYYY` of the spec's
`DD-MM-YYYY` name pattern, read literally. Kept separate from
`strftimeDMY` because glibc's `%Y` does not pad (below), so the two
disagree for years before 1000. -/
def pad4 (n : Int) : String :=
  if n < 10 then "000" ++ toString n
  else if n < 100 then "00" ++ toString n
  else if n < 1000 then "0" ++ toString n
  else toString n

/-- `d.strftime(DD-MM-YYYY format)` as CPython delegates it to glibc:
`%d` and `%m` zero-padded to two digits, `%Y` the plain decimal year
without padding (year 33 renders as `33`, not `0033`). -/
def strftimeDMY (d : Date) : String :=
  pad2 d.day ++ "-" ++ pad2 d.month ++ "-" ++ toString d.year

/-- Python `range(start_year, end_year + 1)`. -/
def yearRange (start_year end_year : Int) : List Int :=
  (List.range (end_year + 1 - start_year).toNat).map fun (i : Nat) => start_year + (i : Int)

/-- The observable effects of one run of `main`: which `(country, year)`
fetches were issued, in order, and which files were written, in order,
with the records each one holds. -/
structure RunResult where
  fetchCalls : List (String × Int)
  files : List (String × List JVal)
deriving Repr

/-- `main`: validate the dates (returning immediately on `ValueError`);
then per country, fetch every year from `start.year` to `end.year`
inclusive into an accumulator, filter it against the window, and write
the result to `{country}_{start DD-MM-YYYY}_{end DD-MM-YYYY}.txt`.
The network is abstracted as `outcomes`, giving each request's outcome. -/
def main (countries_list : List String) (start_date end_date : String)
    (outcomes : String → Int → FetchOutcome) : RunResult :=
  match validate_dates start_date end_date with
  | .error _ => ⟨[], []⟩
  | .ok (start_date_obj, end_date_obj) =>
    countries_list.foldl (fun acc country =>
      let years := yearRange start_date_obj.year end_date_obj.year
      let all_holidays :=
        years.foldl (fun l year => l ++ fetch_holidays country year (outcomes country year)) []
      let filtered_holidays := filter_holidays_by_date all_holidays start_date_obj end_date_obj
      let filename :=
        country ++ "_" ++ strftimeDMY start_date_obj ++ "_" ++ strftimeDMY end_date_obj ++ ".txt"
      ⟨acc.fetchCalls ++ years.map (fun y => (country, y)),
       acc.files ++ [(filename, filtered_holidays)]⟩)
      ⟨[], []⟩

/-- The predicate `filter_holidays_by_date` keeps a record by: its date
resolves and lies in the inclusive window. -/
def keepRecord (start_date end_date : Date) (holiday : JVal) : Bool :=
  match resolveDate holiday with
  | some d => dateLe start_date d && dateLe d end_date
  | none => false

/-- A record used in witnesses: dated 2023-12-20 with an extra opaque
field, as the provider would return it. -/
def sampleRecord : JVal :=
  JVal.obj [("name", JVal.str "Sample Day"),
            ("date", JVal.obj [("datetime",
              JVal.obj [("year", JVal.num 2023), ("month", JVal.num 12), ("day", JVal.num 20)])])]

/-- A record whose nested date fields are present but do not form a valid
calendar date (month 13, day 40), used in witnesses. -/
def invalidRecord : JVal :=
  JVal.obj [("date", JVal.obj [("datetime",
    JVal.obj [("year", JVal.num 2024), ("month", JVal.num 13), ("day", JVal.num 40)])])]

/-- A record with no `date` key at all, used in witnesses. -/
def datelessRecord : JVal :=
  JVal.obj [("name", JVal.str "No Date")]

theorem dateLe_iff {a b : Date} :
    dateLe a b = true ↔
      (a.year < b.year ∨ (a.year = b.year ∧
        (a.month < b.month ∨ (a.month = b.month ∧ a.day ≤ b.day)))) := by
  unfold dateLe
  split_ifs <;> simp <;> omega

theorem dateLe_refl (d : Date) : dateLe d d = true := by
  rw [dateLe_iff]; omega

theorem dateLe_pred_self (s : Date) : dateLe s (datePred s) = false := by
  rw [Bool.eq_false_iff]
  intro h
  rw [dateLe_iff] at h
  unfold datePred at h
  split_ifs at h <;> simp at h <;> omega

theorem dateSucc_le_self (e : Date) : dateLe (dateSucc e) e = false := by
  rw [Bool.eq_false_iff]
  intro h
  rw [dateLe_iff] at h
  unfold dateSucc at h
  split_ifs at h <;> simp at h <;> omega

theorem keepRecord_iff {s e : Date} {rec : JVal} :
    keepRecord s e rec = true ↔
      ∃ d, resolveDate rec = some d ∧ dateLe s d = true ∧ dateLe d e = true := by
  unfold keepRecord
  cases h : resolveDate rec <;> simp [h]

theorem filter_eq_filter (hs : List JVal) (s e : Date) :
    filter_holidays_by_date hs s e = hs.filter (keepRecord s e) := by
  induction hs with
  | nil => rfl
  | cons holiday rest ih =>
    rw [filter_holidays_by_date]
    cases hr : resolveDate holiday with
    | none => simp [List.filter_cons, keepRecord, hr, ih]
    | some d =>
      by_cases hd : (dateLe s d && dateLe d e) = true <;>
        simp [List.filter_cons, keepRecord, hr, hd, ih]

theorem filter_skips_unresolved (l1 l2 : List JVal) (bad : JVal) (s e : Date)
    (hb : resolveDate bad = none) :
    filter_holidays_by_date (l1 ++ bad :: l2) s e =
      filter_holidays_by_date (l1 ++ l2) s e := by
  rw [filter_eq_filter, filter_eq_filter]
  have hk : keepRecord s e bad = false := by
    unfold keepRecord; rw [hb]
  simp [List.filter_append, List.filter_cons, hk]

theorem not_mem_filter_of_unresolved (hs : List JVal) (bad : JVal) (s e : Date)
    (hb : resolveDate bad = none) :
    bad ∉ filter_holidays_by_date hs s e := by
  rw [filter_eq_filter]
  intro hmem
  have := (List.mem_filter.mp hmem).2
  rw [keepRecord_iff] at this
  obtain ⟨d, hd, -, -⟩ := this
  rw [hb] at hd
  exact Option.noConfusion hd

/-- C1: with `start ≤ end`, the filter keeps exactly the records whose
resolved date `d` satisfies `start ≤ d ≤ end`, in their original relative
order; a record dated exactly `start` or exactly `end` is kept, and one
dated `start` minus one day or `end` plus one day is dropped. -/
theorem filter_window_inclusive (hs : List JVal) (s e : Date)
    (hse : dateLe s e = true) :
    filter_holidays_by_date hs s e = hs.filter (keepRecord s e)
    ∧ (∀ rec, rec ∈ filter_holidays_by_date hs s e ↔
        rec ∈ hs ∧ ∃ d, resolveDate rec = some d ∧ dateLe s d = true ∧ dateLe d e = true)
    ∧ (∀ rec ∈ hs, resolveDate rec = some s → rec ∈ filter_holidays_by_date hs s e)
    ∧ (∀ rec ∈ hs, resolveDate rec = some e → rec ∈ filter_holidays_by_date hs s e)
    ∧ (∀ rec, resolveDate rec = some (datePred s) →
        rec ∉ filter_holidays_by_date hs s e)
    ∧ (∀ rec, resolveDate rec = some (dateSucc e) →
        rec ∉ filter_holidays_by_date hs s e) := by
  have hmem : ∀ rec, rec ∈ filter_holidays_by_date hs s e ↔
      rec ∈ hs ∧ ∃ d, resolveDate rec = some d ∧ dateLe s d = true ∧ dateLe d e = true := by
    intro rec
    rw [filter_eq_filter, List.mem_filter, keepRecord_iff]
  refine ⟨filter_eq_filter hs s e, hmem, ?_, ?_, ?_, ?_⟩
  · intro rec hr hd
    exact (hmem rec).mpr ⟨hr, s, hd, dateLe_refl s, hse⟩
  · intro rec hr hd
    exact (hmem rec).mpr ⟨hr, e, hd, hse, dateLe_refl e⟩
  · intro rec hd hcontra
    obtain ⟨-, d, hd2, hsd, -⟩ := (hmem rec).mp hcontra
    rw [hd] at hd2
    obtain rfl : datePred s = d := Option.some.inj hd2
    rw [dateLe_pred_self s] at hsd
    exact Bool.noConfusion hsd
  · intro rec hd hcontra
    obtain ⟨-, d, hd2, -, hde⟩ := (hmem rec).mp hcontra
    rw [hd] at hd2
    obtain rfl : dateSucc e = d := Option.some.inj hd2
    rw [dateSucc_le_self e] at hde
    exact Bool.noConfusion hde

/-- C1 witness: a concrete window and a record dated exactly the start. -/
theorem filter_window_inclusive_witness :
    sampleRecord ∈ filter_holidays_by_date [sampleRecord]
      (Date.mk 2023 12 20) (Date.mk 2024 1 5) :=
  (filter_window_inclusive [sampleRecord] (Date.mk 2023 12 20) (Date.mk 2024 1 5)
      (by decide)).2.2.1 sampleRecord (by simp) rfl

/-- C6: the filter is idempotent — filtering its own output against the
same window returns that output unchanged. -/
theorem filter_idempotent (hs : List JVal) (s e : Date) :
    filter_holidays_by_date (filter_holidays_by_date hs s e) s e =
      filter_holidays_by_date hs s e := by
  rw [filter_eq_filter hs, filter_eq_filter]
  rw [List.filter_filter]
  simp [Bool.and_self]

/-- C7: a record lacking one of the nested year/month/day fields is
dropped (it never appears in the output) and filtering proceeds on the
remaining records exactly as if the record were absent. -/
theorem filter_drops_missing_fields (l1 l2 : List JVal) (bad : JVal) (s e : Date)
    (hb : lookupDate bad = none) :
    bad ∉ filter_holidays_by_date (l1 ++ bad :: l2) s e
    ∧ filter_holidays_by_date (l1 ++ bad :: l2) s e =
        filter_holidays_by_date (l1 ++ l2) s e := by
  have hres : resolveDate bad = none := by
    unfold resolveDate; rw [hb]
  exact ⟨not_mem_filter_of_unresolved _ bad s e hres,
         filter_skips_unresolved l1 l2 bad s e hres⟩

/-- C7 witness: a record without a `date` key, among two dated ones. -/
theorem filter_drops_missing_fields_witness :
    datelessRecord ∉ filter_holidays_by_date [sampleRecord, datelessRecord]
        (Date.mk 2023 12 20) (Date.mk 2024 1 5)
    ∧ filter_holidays_by_date [sampleRecord, datelessRecord]
        (Date.mk 2023 12 20) (Date.mk 2024 1 5) =
      filter_holidays_by_date [sampleRecord]
        (Date.mk 2023 12 20) (Date.mk 2024 1 5) :=
  filter_drops_missing_fields [sampleRecord] [] datelessRecord
    (Date.mk 2023 12 20) (Date.mk 2024 1 5) rfl

/-- C10: a record whose nested date fields are all present but whose
values make `datetime(...)` raise — bad calendar components such as
month 13 / day 40, or a component that is not an `int` (nor a `bool`,
which coerces and so does not raise) — is skipped without raising, and
the remaining records are filtered as if it were absent. -/
theorem filter_total_on_invalid_components (l1 l2 : List JVal) (rec : JVal)
    (s e : Date) (hfields : (lookupDate rec).isSome = true)
    (hres : resolveDate rec = none) :
    rec ∉ filter_holidays_by_date (l1 ++ rec :: l2) s e
    ∧ filter_holidays_by_date (l1 ++ rec :: l2) s e =
        filter_holidays_by_date (l1 ++ l2) s e :=
  ⟨not_mem_filter_of_unresolved _ rec s e hres,
   filter_skips_unresolved l1 l2 rec s e hres⟩

/-- C10 witness: a record with month 13 and day 40. -/
theorem filter_total_on_invalid_components_witness :
    invalidRecord ∉ filter_holidays_by_date [invalidRecord, sampleRecord]
        (Date.mk 2023 12 20) (Date.mk 2024 1 5)
    ∧ filter_holidays_by_date [invalidRecord, sampleRecord]
        (Date.mk 2023 12 20) (Date.mk 2024 1 5) =
      filter_holidays_by_date [sampleRecord]
        (Date.mk 2023 12 20) (Date.mk 2024 1 5) :=
  filter_total_on_invalid_components [] [sampleRecord] invalidRecord
    (Date.mk 2023 12 20) (Date.mk 2024 1 5) rfl rfl

/-- C2: when both strings parse as `YYYY-MM-DD` and `start ≤ end`,
`validate_dates` returns the two parsed dates unchanged; when either
string is malformed, or when start is strictly after end, it fails. -/
theorem validate_dates_spec (s t : String) :
    (∀ sd ed, parseDate s = some sd → parseDate t = some ed →
      dateLe sd ed = true → validate_dates s t = Except.ok (sd, ed))
    ∧ ((parseDate s = none ∨ parseDate t = none) →
      ∃ msg, validate_dates s t = Except.error msg)
    ∧ (∀ sd ed, parseDate s = some sd → parseDate t = some ed →
      dateLe sd ed = false → ∃ msg, validate_dates s t = Except.error msg) := by
  refine ⟨?_, ?_, ?_⟩
  · intro sd ed hs ht hle
    unfold validate_dates
    rw [hs, ht]
    simp [dateLt, hle]
  · intro h
    unfold validate_dates
    rcases h with h | h <;> rw [h] <;>
      first
      | exact ⟨_, rfl⟩
      | (cases parseDate s <;> exact ⟨_, rfl⟩)
      | (cases parseDate t <;> exact ⟨_, rfl⟩)
  · intro sd ed hs ht hle
    unfold validate_dates
    rw [hs, ht]
    simp [dateLt, hle]

/-- C2 witness: a valid pair returned unchanged; two malformed strings
rejected; an inverted range rejected. -/
theorem validate_dates_spec_witness :
    validate_dates "2023-12-20" "2024-01-05" =
      Except.ok (Date.mk 2023 12 20, Date.mk 2024 1 5)
    ∧ (∃ msg, validate_dates "2024-13-40" "2024-01-05" = Except.error msg)
    ∧ (∃ msg, validate_dates "not-a-date" "2024-01-05" = Except.error msg)
    ∧ (∃ msg, validate_dates "2024-05-10" "2024-01-01" = Except.error msg) := by
  refine ⟨?_, ?_, ?_, ?_⟩
  · exact (validate_dates_spec "2023-12-20" "2024-01-05").1 _ _ rfl rfl rfl
  · exact (validate_dates_spec "2024-13-40" "2024-01-05").2.1 (Or.inl rfl)
  · exact (validate_dates_spec "not-a-date" "2024-01-05").2.1 (Or.inl rfl)
  · exact (validate_dates_spec "2024-05-10" "2024-01-01").2.2 _ _ rfl rfl rfl

/-- C8: if date validation fails, `main` returns before the per-country
loop — no fetch is issued and no file is produced. -/
theorem main_aborts_on_invalid_dates (countries_list : List String)
    (start_date end_date : String) (outcomes : String → Int → FetchOutcome)
    (msg : String) (h : validate_dates start_date end_date = Except.error msg) :
    main countries_list start_date end_date outcomes = ⟨[], []⟩ := by
  unfold main
  rw [h]

/-- C8 witness: the inverted window `2024-05-10 .. 2024-01-01`. -/
theorem main_aborts_on_invalid_dates_witness :
    main ["UA", "US"] "2024-05-10" "2024-01-01"
      (fun _ _ => FetchOutcome.requestError "unreachable") = ⟨[], []⟩ :=
  main_aborts_on_invalid_dates ["UA", "US"] "2024-05-10" "2024-01-01"
    (fun _ _ => FetchOutcome.requestError "unreachable")
    "Start date must not be after end date." rfl

theorem foldl_append_eq_flatten {α β : Type} (f : α → List β) :
    ∀ (ys : List α) (init : List β),
      ys.foldl (fun l y => l ++ f y) init = init ++ (ys.map f).flatten := by
  intro ys
  induction ys with
  | nil => intro init; simp
  | cons y ys ih => intro init; simp [ih, List.append_assoc]

theorem main_ok_spec (countries_list : List String) (start_date end_date : String)
    (outcomes : String → Int → FetchOutcome) (sd ed : Date)
    (h : validate_dates start_date end_date = Except.ok (sd, ed)) :
    (main countries_list start_date end_date outcomes).fetchCalls =
      countries_list.flatMap (fun c => (yearRange sd.year ed.year).map fun y => (c, y))
    ∧ (main countries_list start_date end_date outcomes).files =
      countries_list.map (fun c =>
        (c ++ "_" ++ strftimeDMY sd ++ "_" ++ strftimeDMY ed ++ ".txt",
         filter_holidays_by_date
           ((yearRange sd.year ed.year).map fun y =>
             fetch_holidays c y (outcomes c y)).flatten sd ed)) := by
  unfold main
  rw [h]
  dsimp only
  have key : ∀ (cs : List String) (acc : RunResult),
      cs.foldl (fun acc country =>
        let years := yearRange sd.year ed.year
        let all_holidays :=
          years.foldl (fun l year => l ++ fetch_holidays country year (outcomes country year)) []
        let filtered_holidays := filter_holidays_by_date all_holidays sd ed
        let filename :=
          country ++ "_" ++ strftimeDMY sd ++ "_" ++ strftimeDMY ed ++ ".txt"
        (⟨acc.fetchCalls ++ years.map (fun y => (country, y)),
          acc.files ++ [(filename, filtered_holidays)]⟩ : RunResult)) acc =
      ⟨acc.fetchCalls ++
        cs.flatMap (fun c => (yearRange sd.year ed.year).map fun y => (c, y)),
       acc.files ++ cs.map (fun c =>
        (c ++ "_" ++ strftimeDMY sd ++ "_" ++ strftimeDMY ed ++ ".txt",
         filter_holidays_by_date
           ((yearRange sd.year ed.year).map fun y =>
             fetch_holidays c y (outcomes c y)).flatten sd ed))⟩ := by
    intro cs
    induction cs with
    | nil => intro acc; simp
    | cons c cs ih =>
      intro acc
      simp only [List.foldl_cons, ih, List.flatMap_cons, List.map_cons]
      rw [foldl_append_eq_flatten]
      simp [List.append_assoc]
  rw [key]
  simp

theorem mem_yearRange {a b y : Int} : y ∈ yearRange a b ↔ a ≤ y ∧ y ≤ b := by
  unfold yearRange
  rw [List.mem_map]
  constructor
  · rintro ⟨i, hi, rfl⟩
    rw [List.mem_range] at hi
    omega
  · intro hy
    refine ⟨(y - a).toNat, ?_, ?_⟩
    · rw [List.mem_range]; omega
    · omega

theorem yearRange_nodup (a b : Int) : (yearRange a b).Nodup := by
  unfold yearRange
  refine List.Nodup.map ?_ (List.nodup_range _)
  intro i j hij
  simp only at hij
  omega

theorem yearRange_length {a b : Int} (hab : a ≤ b) :
    ((yearRange a b).length : Int) = b - a + 1 := by
  unfold yearRange
  rw [List.length_map, List.length_range]
  omega

theorem validate_ok_le {s t : String} {sd ed : Date}
    (h : validate_dates s t = Except.ok (sd, ed)) : dateLe sd ed = true := by
  unfold validate_dates at h
  split at h
  · split at h
    · exact Except.noConfusion h
    · rename_i hlt
      injection h with hpair
      rw [Prod.mk.injEq] at hpair
      obtain ⟨rfl, rfl⟩ := hpair
      simpa [dateLt] using hlt
  · exact Except.noConfusion h

/-- C4: with a validated window, `main` issues exactly one fetch per
(country, year) pair with the years running from `start.year` to
`end.year` inclusive (so `N` calls per country for a window spanning `N`
calendar years), and per country the fetched lists are concatenated in
year order before being filtered. -/
theorem main_fetches_each_year_once (countries_list : List String)
    (start_date end_date : String) (outcomes : String → Int → FetchOutcome)
    (sd ed : Date) (h : validate_dates start_date end_date = Except.ok (sd, ed)) :
    (main countries_list start_date end_date outcomes).fetchCalls =
      countries_list.flatMap (fun c => (yearRange sd.year ed.year).map fun y => (c, y))
    ∧ (∀ y : Int, y ∈ yearRange sd.year ed.year ↔ sd.year ≤ y ∧ y ≤ ed.year)
    ∧ (yearRange sd.year ed.year).Nodup
    ∧ ((yearRange sd.year ed.year).length : Int) = ed.year - sd.year + 1
    ∧ (main countries_list start_date end_date outcomes).files =
      countries_list.map (fun c =>
        (c ++ "_" ++ strftimeDMY sd ++ "_" ++ strftimeDMY ed ++ ".txt",
         filter_holidays_by_date
           ((yearRange sd.year ed.year).map fun y =>
             fetch_holidays c y (outcomes c y)).flatten sd ed)) := by
  have hyears : sd.year ≤ ed.year := by
    have := validate_ok_le h
    rw [dateLe_iff] at this
    omega
  obtain ⟨hcalls, hfiles⟩ :=
    main_ok_spec countries_list start_date end_date outcomes sd ed h
  exact ⟨hcalls, fun y => mem_yearRange, yearRange_nodup _ _,
         yearRange_length hyears, hfiles⟩

/-- C4 witness: the cross-year window 2023-12-20 .. 2024-01-05 issues the
fetches (UA, 2023), (UA, 2024), (US, 2023), (US, 2024), in that order. -/
theorem main_fetches_each_year_once_witness :
    (main ["UA", "US"] "2023-12-20" "2024-01-05"
      (fun _ _ => FetchOutcome.requestError "down")).fetchCalls =
      [("UA", 2023), ("UA", 2024), ("US", 2023), ("US", 2024)] := by
  have h := main_fetches_each_year_once ["UA", "US"] "2023-12-20" "2024-01-05"
    (fun _ _ => FetchOutcome.requestError "down")
    (Date.mk 2023 12 20) (Date.mk 2024 1 5) rfl
  rw [h.1]
  rfl

/-- C9 (amended): with a validated window, the files are written, per
country in order, under the name
`{country}_{start DD-MM-YYYY}_{end DD-MM-YYYY}.txt` with day and month
zero-padded to two digits and the year in plain decimal — which coincides
with the claimed four-digit `YYYY` exactly when the year is at least
1000 (glibc's `%Y` pads nothing for earlier years). -/
theorem main_output_filenames (countries_list : List String)
    (start_date end_date : String) (outcomes : String → Int → FetchOutcome)
    (sd ed : Date) (h : validate_dates start_date end_date = Except.ok (sd, ed)) :
    ((main countries_list start_date end_date outcomes).files.map Prod.fst =
      countries_list.map (fun c =>
        c ++ "_" ++ (pad2 sd.day ++ "-" ++ pad2 sd.month ++ "-" ++ toString sd.year)
          ++ "_" ++ (pad2 ed.day ++ "-" ++ pad2 ed.month ++ "-" ++ toString ed.year)
          ++ ".txt"))
    ∧ (1000 ≤ sd.year → pad4 sd.year = toString sd.year)
    ∧ (1000 ≤ ed.year → pad4 ed.year = toString ed.year) := by
  refine ⟨?_, ?_, ?_⟩
  · obtain ⟨-, hfiles⟩ :=
      main_ok_spec countries_list start_date end_date outcomes sd ed h
    rw [hfiles, List.map_map]
    rfl
  · intro hy
    unfold pad4
    rw [if_neg (by omega), if_neg (by omega), if_neg (by omega)]
  · intro hy
    unfold pad4
    rw [if_neg (by omega), if_neg (by omega), if_neg (by omega)]

/-- C9 witness: the concrete destination name for UA over
2023-12-20 .. 2024-01-05, where the plain-decimal year is the four-digit
year. -/
theorem main_output_filenames_witness :
    (main ["UA"] "2023-12-20" "2024-01-05"
      (fun _ _ => FetchOutcome.requestError "down")).files.map Prod.fst =
      ["UA_20-12-2023_05-01-2024.txt"] := by
  have h := main_output_filenames ["UA"] "2023-12-20" "2024-01-05"
    (fun _ _ => FetchOutcome.requestError "down")
    (Date.mk 2023 12 20) (Date.mk 2024 1 5) rfl
  rw [h.1]
  rfl

/-- C9 counterexample: for the validated window 0033-01-05 .. 0040-02-01
the program writes `UA_05-01-33_01-02-40.txt`, not the
`UA_05-01-0033_01-02-0040.txt` that the literal four-digit `DD-MM-YYYY`
reading of the claim gives. -/
theorem main_output_filenames_counterexample :
    ((main ["UA"] "0033-01-05" "0040-02-01"
        (fun _ _ => FetchOutcome.requestError "down")).files.map Prod.fst =
      ["UA_05-01-33_01-02-40.txt"])
    ∧ (main ["UA"] "0033-01-05" "0040-02-01"
        (fun _ _ => FetchOutcome.requestError "down")).files.map Prod.fst ≠
      ["UA_" ++ pad2 5 ++ "-" ++ pad2 1 ++ "-" ++ pad4 33 ++ "_"
        ++ pad2 1 ++ "-" ++ pad2 2 ++ "-" ++ pad4 40 ++ ".txt"] :=
  ⟨rfl, by decide⟩

/-- The `response.holidays` path of a parsed response body: the value of
`data['response']['holidays']` when both subscripts succeed. -/
def responseHolidays (data : JVal) : Option JVal :=
  (pySubscriptStr data "response").bind fun resp => pySubscriptStr resp "holidays"

/-- C3: `fetch_holidays` never raises past its boundary — on any
transport- or protocol-level failure it returns the empty list, and on a
success response lacking the `response.holidays` path it also returns the
empty list, so callers always receive a list. -/
theorem fetch_never_raises (country : String) (year : Int) (outcome : FetchOutcome) :
    (∀ msg, outcome = FetchOutcome.httpError msg →
      fetch_holidays country year outcome = [])
    ∧ (∀ msg, outcome = FetchOutcome.requestError msg →
      fetch_holidays country year outcome = [])
    ∧ (∀ msg, outcome = FetchOutcome.otherError msg →
      fetch_holidays country year outcome = [])
    ∧ (∀ data, outcome = FetchOutcome.success data → responseHolidays data = none →
      fetch_holidays country year outcome = []) := by
  refine ⟨fun msg h => by rw [h]; rfl, fun msg h => by rw [h]; rfl,
          fun msg h => by rw [h]; rfl, ?_⟩
  intro data h hnone
  subst h
  unfold responseHolidays at hnone
  cases hc1 : pyContainsStr "response" data with
  | none => simp [fetch_holidays, hc1]
  | some b1 =>
    cases b1 with
    | false => simp [fetch_holidays, hc1]
    | true =>
      cases hs1 : pySubscriptStr data "response" with
      | none => simp [fetch_holidays, hc1, hs1]
      | some resp =>
        rw [hs1] at hnone
        simp only [Option.some_bind] at hnone
        cases hc2 : pyContainsStr "holidays" resp with
        | none => simp [fetch_holidays, hc1, hs1, hc2]
        | some b2 =>
          cases b2 with
          | false => simp [fetch_holidays, hc1, hs1, hc2]
          | true => simp [fetch_holidays, hc1, hs1, hc2, hnone]

/-- C3 witness: an HTTP failure and a success body with no
`response.holidays` path both yield the empty list. -/
theorem fetch_never_raises_witness :
    fetch_holidays "UA" 2023 (FetchOutcome.httpError "401 Unauthorized") = []
    ∧ fetch_holidays "UA" 2023
        (FetchOutcome.success (JVal.obj [("meta", JVal.num 200)])) = [] :=
  ⟨(fetch_never_raises "UA" 2023 (FetchOutcome.httpError "401 Unauthorized")).1
      "401 Unauthorized" rfl,
   (fetch_never_raises "UA" 2023
      (FetchOutcome.success (JVal.obj [("meta", JVal.num 200)]))).2.2.2
      (JVal.obj [("meta", JVal.num 200)]) rfl rfl⟩

/-- Split a character sequence at every newline: the file's lines, with a
final empty entry when the content ends in a newline. -/
def splitLines : List Char → List (List Char)
  | [] => [[]]
  | c :: cs =>
    if c = '\n' then [] :: splitLines cs
    else
      match splitLines cs with
      | [] => [[c]]
      | line :: rest => (c :: line) :: rest

theorem hexDigitChar_ne_newline : ∀ m : Nat, m < 16 → hexDigitChar m ≠ '\n' := by
  decide

theorem newline_not_mem_hex4 (n : Nat) : '\n' ∉ (hex4 n).data := by
  intro h
  have h4 : ∀ x ∈ [hexDigitChar (n / 4096 % 16), hexDigitChar (n / 256 % 16),
      hexDigitChar (n / 16 % 16), hexDigitChar (n % 16)], x ≠ '\n' := by
    intro x hx
    simp only [List.mem_cons, List.not_mem_nil, or_false] at hx
    rcases hx with rfl | rfl | rfl | rfl <;>
      exact hexDigitChar_ne_newline _ (by omega)
  exact h4 '\n' h rfl

theorem newline_not_mem_escapeChar (c : Char) : '\n' ∉ (escapeChar c).data := by
  unfold escapeChar
  split_ifs with h1 h2 h3 h4 h5 h6 h7 h8 h9
  · decide
  · decide
  · decide
  · decide
  · decide
  · decide
  · decide
  · intro hm
    have hc : '\n' = c := by
      simpa [String.singleton] using hm
    rw [← hc] at h8
    revert h8
    decide
  · rw [String.data_append]
    intro hm
    rcases List.mem_append.mp hm with hm | hm
    · revert hm; decide
    · exact newline_not_mem_hex4 _ hm
  · rw [String.data_append, String.data_append, String.data_append]
    intro hm
    rcases List.mem_append.mp hm with hm | hm
    · rcases List.mem_append.mp hm with hm | hm
      · rcases List.mem_append.mp hm with hm | hm
        · revert hm; decide
        · exact newline_not_mem_hex4 _ hm
      · revert hm; decide
    · exact newline_not_mem_hex4 _ hm

theorem foldl_append_data : ∀ (l : List String) (s : String),
    (l.foldl (· ++ ·) s).data = s.data ++ (l.map String.data).flatten := by
  intro l
  induction l with
  | nil => intro s; simp
  | cons x xs ih =>
    intro s
    simp only [List.foldl_cons, List.map_cons, List.flatten_cons, ih,
      String.data_append, List.append_assoc]

theorem join_data (l : List String) :
    (String.join l).data = (l.map String.data).flatten := by
  unfold String.join
  rw [foldl_append_data]
  rfl

theorem newline_not_mem_join {l : List String} (h : ∀ s ∈ l, '\n' ∉ s.data) :
    '\n' ∉ (String.join l).data := by
  rw [join_data]
  intro hm
  rcases List.mem_flatten.mp hm with ⟨cs, hcs, hmem⟩
  rcases List.mem_map.mp hcs with ⟨s, hs, rfl⟩
  exact h s hs hmem

theorem dumpString_no_newline (s : String) : '\n' ∉ (dumpString s).data := by
  unfold dumpString
  rw [String.data_append, String.data_append]
  intro hm
  rcases List.mem_append.mp hm with hm | hm
  · rcases List.mem_append.mp hm with hm | hm
    · revert hm; decide
    · refine newline_not_mem_join ?_ hm
      intro t ht
      rcases List.mem_map.mp ht with ⟨c, -, rfl⟩
      exact newline_not_mem_escapeChar c
  · revert hm; decide

theorem natToDigitsRev_no_newline (n : Nat) : '\n' ∉ natToDigitsRev n := by
  induction n using Nat.strong_induction_on with
  | _ n ih =>
    rw [natToDigitsRev]
    split_ifs with h
    · intro hm
      have hc : '\n' = hexDigitChar n := by simpa using hm
      exact hexDigitChar_ne_newline n (by omega) hc.symm
    · intro hm
      rcases List.mem_cons.mp hm with hm | hm
      · exact hexDigitChar_ne_newline _ (by omega) hm.symm
      · exact ih (n / 10) (Nat.div_lt_self (by omega) (by omega)) hm

theorem intToDecimal_no_newline (n : Int) : '\n' ∉ (intToDecimal n).data := by
  unfold intToDecimal natToDecimal
  split_ifs with h
  · rw [String.data_append]
    intro hm
    rcases List.mem_append.mp hm with hm | hm
    · revert hm; decide
    · have hm' : '\n' ∈ (natToDigitsRev n.natAbs).reverse := hm
      rw [List.mem_reverse] at hm'
      exact natToDigitsRev_no_newline n.natAbs hm'
  · intro hm
    have hm' : '\n' ∈ (natToDigitsRev n.natAbs).reverse := hm
    rw [List.mem_reverse] at hm'
    exact natToDigitsRev_no_newline n.natAbs hm'

mutual

theorem jsonDumps_no_newline (v : JVal) : '\n' ∉ (jsonDumps v).data := by
  cases v with
  | null => simp only [jsonDumps]; decide
  | bool b => cases b <;> (simp only [jsonDumps]; decide)
  | num n => simp only [jsonDumps]; exact intToDecimal_no_newline n
  | str s => simp only [jsonDumps]; exact dumpString_no_newline s
  | arr xs =>
    simp only [jsonDumps]
    rw [String.data_append, String.data_append]
    intro hm
    rcases List.mem_append.mp hm with hm | hm
    · rcases List.mem_append.mp hm with hm | hm
      · revert hm; decide
      · exact jsonDumpsArr_no_newline xs hm
    · revert hm; decide
  | obj fs =>
    simp only [jsonDumps]
    rw [String.data_append, String.data_append]
    intro hm
    rcases List.mem_append.mp hm with hm | hm
    · rcases List.mem_append.mp hm with hm | hm
      · revert hm; decide
      · exact jsonDumpsObj_no_newline fs hm
    · revert hm; decide

theorem jsonDumpsArr_no_newline (xs : List JVal) : '\n' ∉ (jsonDumpsArr xs).data := by
  match xs with
  | [] => simp only [jsonDumpsArr]; decide
  | [x] => simp only [jsonDumpsArr]; exact jsonDumps_no_newline x
  | x :: y :: rest =>
    simp only [jsonDumpsArr]
    rw [String.data_append, String.data_append]
    intro hm
    rcases List.mem_append.mp hm with hm | hm
    · rcases List.mem_append.mp hm with hm | hm
      · exact jsonDumps_no_newline x hm
      · revert hm; decide
    · exact jsonDumpsArr_no_newline (y :: rest) hm

theorem jsonDumpsObj_no_newline (fs : List (String × JVal)) :
    '\n' ∉ (jsonDumpsObj fs).data := by
  match fs with
  | [] => simp only [jsonDumpsObj]; decide
  | [(k, v)] =>
    simp only [jsonDumpsObj]
    rw [String.data_append, String.data_append]
    intro hm
    rcases List.mem_append.mp hm with hm | hm
    · rcases List.mem_append.mp hm with hm | hm
      · exact dumpString_no_newline k hm
      · revert hm; decide
    · exact jsonDumps_no_newline v hm
  | (k, v) :: p :: rest =>
    simp only [jsonDumpsObj]
    rw [String.data_append, String.data_append, String.data_append,
      String.data_append]
    intro hm
    rcases List.mem_append.mp hm with hm | hm
    · rcases List.mem_append.mp hm with hm | hm
      · rcases List.mem_append.mp hm with hm | hm
        · rcases List.mem_append.mp hm with hm | hm
          · exact dumpString_no_newline k hm
          · revert hm; decide
        · exact jsonDumps_no_newline v hm
      · revert hm; decide
    · exact jsonDumpsObj_no_newline (p :: rest) hm

end

theorem splitLines_append (cs rest : List Char) (h : '\n' ∉ cs) :
    splitLines (cs ++ '\n' :: rest) = cs :: splitLines rest := by
  induction cs with
  | nil => simp [splitLines]
  | cons c cs ih =>
    have hc : ¬(c = '\n') := fun e => h (e ▸ List.mem_cons_self c cs)
    have h' : '\n' ∉ cs := fun hm => h (List.mem_cons_of_mem _ hm)
    rw [List.cons_append, splitLines, if_neg hc, ih h']

theorem save_to_file_data (data : List JVal) :
    (save_to_file data).data =
      (data.map fun holiday => (jsonDumps holiday).data ++ ['\n']).flatten := by
  unfold save_to_file
  rw [join_data, List.map_map]
  congr 1

/-- C5: regardless of what the destination held before, after a
successful write its content splits at newlines into exactly the
serialized filtered records, in their original order, followed by the
empty tail after the final newline — each record is one line and the file
contains nothing else. -/
theorem save_roundtrip (oldContent : String) (data : List JVal) :
    splitLines (fileAfterSave oldContent data).data =
      data.map (fun holiday => (jsonDumps holiday).data) ++ [[]] := by
  show splitLines (save_to_file data).data = _
  rw [save_to_file_data]
  induction data with
  | nil => rfl
  | cons holiday rest ih =>
    rw [List.map_cons, List.flatten_cons, List.map_cons, List.append_assoc,
      List.cons_append, List.nil_append, splitLines_append _ _
        (jsonDumps_no_newline holiday), ih]
    rfl

end Calendarific
